import Mathlib

/-!
Verification of the appointment-intake pipeline of the salon-booking backend.

The embedded code is `backend/src/validation/appointments.ts` (the field
validator, the normalizer, the 15-minute-grid check, and `computeEndAt`)
together with the `POST /appointments` route of `app.ts` (the intake
orchestrator).

JavaScript values appearing in the untyped request payload are modelled by
`JSVal`; epoch times (`Date.getTime()` values) are modelled by `Int`
milliseconds.  `Date` parsing and `toISOString` rendering are modelled by
`jsParse` and `isoChars` below, which implement the proleptic Gregorian
calendar mapping that the ECMAScript specification prescribes
(`MakeDay`/`YearFromTime`/`MonthFromTime`/`DateFromTime`).  Numbers in the
payload are modelled at integer values (`JSVal.num`) plus an explicit `nan`;
string lengths are code-point counts, which agree with JavaScript's UTF-16
lengths on the basic-multilingual-plane text handled here.
-/

/-! ## JavaScript value model -/

/-- A JavaScript value as it can appear in a JSON-parsed request body or be
produced by the normalizer.  Numbers are modelled at integer values, with
`nan` for the not-a-number case. -/
inductive JSVal where
  | undef : JSVal
  | jsNull : JSVal
  | str : String → JSVal
  | num : Int → JSVal
  | nan : JSVal
  | boolean : Bool → JSVal
deriving DecidableEq

/-- JavaScript truthiness: `undefined`, `null`, `""`, `0`, `NaN` and `false`
are falsy, everything else is truthy. -/
def JSVal.truthy : JSVal → Bool
  | .undef => false
  | .jsNull => false
  | .str s => !s.isEmpty
  | .num n => n != 0
  | .nan => false
  | .boolean b => b

/-- The set of whitespace characters recognised by `String.prototype.trim`
and by the regex class `\s` (restricted to the characters occurring in the
model's alphabet; the exotic Unicode space separators are omitted). -/
def jsWhitespace (c : Char) : Bool :=
  c == ' ' || c == '\t' || c == '\n' || c == '\r' || c == '\x0b' ||
  c == '\x0c' || c == '\u00A0' || c == '\uFEFF'

/-- `String.prototype.trim`: drop whitespace from both ends. -/
def jsTrim (s : String) : String :=
  ⟨((s.data.dropWhile jsWhitespace).reverse.dropWhile jsWhitespace).reverse⟩

/-- The numeric value of a digit character. -/
def charDigit (c : Char) : Int := (c.toNat : Int) - 48

/-- `String(x)` on the modelled value domain (integer-valued numbers). -/
def jsToString : JSVal → String
  | .undef => "undefined"
  | .jsNull => "null"
  | .str s => s
  | .num n => toString n
  | .nan => "NaN"
  | .boolean b => if b then "true" else "false"

/-- Digit list to integer, most significant first. -/
def digitsToInt (l : List Char) : Int :=
  l.foldl (fun a c => a * 10 + charDigit c) 0

/-- `Number(x)` on the modelled value domain.  String conversion covers
trimmed optionally-signed decimal integer strings (the only numeric strings
in the model's domain); other strings give `NaN`. -/
def jsToNumber (v : JSVal) : JSVal :=
  match v with
  | .num n => .num n
  | .nan => .nan
  | .undef => .nan
  | .jsNull => .num 0
  | .boolean b => .num (if b then 1 else 0)
  | .str s =>
    let t := (jsTrim s).data
    if t.isEmpty then .num 0
    else match t with
      | '-' :: ds =>
        if !ds.isEmpty && ds.all Char.isDigit then .num (-(digitsToInt ds)) else .nan
      | '+' :: ds =>
        if !ds.isEmpty && ds.all Char.isDigit then .num (digitsToInt ds) else .nan
      | ds =>
        if ds.all Char.isDigit then .num (digitsToInt ds) else .nan

/-- The request payload: the five fields read by the validator and the
normalizer, each an untrusted JavaScript value. -/
structure Payload where
  serviceId : JSVal
  startAt : JSVal
  clientName : JSVal
  clientEmail : JSVal
  clientPhone : JSVal
deriving DecidableEq

/-- The all-`undefined` payload, used as the default object of the heap
model. -/
def emptyPayload : Payload :=
  { serviceId := .undef, startAt := .undef, clientName := .undef,
    clientEmail := .undef, clientPhone := .undef }

/-! ## Proleptic Gregorian calendar

`daysFromCivil` maps a calendar date to its day number relative to
1970-01-01 (ECMAScript `MakeDay`); `civilFromDays` is the inverse mapping
used when rendering (`YearFromTime`/`MonthFromTime`/`DateFromTime`),
implemented by decomposing the day number into 400-year eras and
100/4/1-year cycles. -/

/-- Gregorian leap-year test (ECMAScript `DaysInYear`). -/
def isLeap (y : Int) : Bool :=
  (y % 4 == 0 && y % 100 != 0) || y % 400 == 0

/-- Number of days in month `m` of year `y`. -/
def daysInMonth (y m : Int) : Int :=
  if m = 2 then (if isLeap y then 29 else 28)
  else if m = 4 ∨ m = 6 ∨ m = 9 ∨ m = 11 then 30
  else 31

/-- Day number (days since 1970-01-01) of the civil date `y-m-d`. -/
def daysFromCivil (y m d : Int) : Int :=
  let yy := if m ≤ 2 then y - 1 else y
  let era := yy / 400
  let yoe := yy - era * 400
  let mp := (m + 9) % 12
  let doy := (153 * mp + 2) / 5 + d - 1
  let doe := yoe * 365 + yoe / 4 - yoe / 100 + doy
  era * 146097 + doe - 719468

/-- 400-year era of a day number (eras begin on 1 March of years divisible
by 400; day 0 is 1970-01-01). -/
def eraOfDay (z : Int) : Int := (z + 719468) / 146097

/-- Day-of-era, in `[0, 146097)`. -/
def doeOfDay (z : Int) : Int := z + 719468 - eraOfDay z * 146097

/-- Completed centuries within the era (the fourth century keeps its final
leap day, hence the cap at 3). -/
def cOfDoe (doe : Int) : Int :=
  if 3 ≤ doe / 36524 then 3 else doe / 36524

/-- Remaining days after the completed centuries. -/
def r1OfDoe (doe : Int) : Int := doe - 36524 * cOfDoe doe

/-- Completed 4-year cycles within the century. -/
def qOfDoe (doe : Int) : Int := r1OfDoe doe / 1461

/-- Remaining days after the completed 4-year cycles. -/
def r2OfDoe (doe : Int) : Int := r1OfDoe doe - 1461 * qOfDoe doe

/-- Completed years within the 4-year cycle (the fourth year keeps its leap
day, hence the cap at 3). -/
def ryOfDoe (doe : Int) : Int :=
  if 3 ≤ r2OfDoe doe / 365 then 3 else r2OfDoe doe / 365

/-- Day of the March-based year, in `[0, 365]`. -/
def doyOfDoe (doe : Int) : Int := r2OfDoe doe - 365 * ryOfDoe doe

/-- Year of the era (March-based), in `[0, 399]`. -/
def yoeOfDoe (doe : Int) : Int :=
  100 * cOfDoe doe + 4 * qOfDoe doe + ryOfDoe doe

/-- March-based month index, `0` = March … `11` = February. -/
def mpOfDoe (doe : Int) : Int := (5 * doyOfDoe doe + 2) / 153

/-- Day of the month, in `[1, 31]`. -/
def dayOfDoe (doe : Int) : Int :=
  doyOfDoe doe - (153 * mpOfDoe doe + 2) / 5 + 1

/-- Calendar month, in `[1, 12]`. -/
def monthOfDoe (doe : Int) : Int :=
  mpOfDoe doe + (if mpOfDoe doe < 10 then 3 else -9)

/-- Civil date `(y, m, d)` of a day number. -/
def civilFromDays (z : Int) : Int × Int × Int :=
  ((if monthOfDoe (doeOfDay z) ≤ 2
    then eraOfDay z * 400 + yoeOfDoe (doeOfDay z) + 1
    else eraOfDay z * 400 + yoeOfDoe (doeOfDay z)),
   monthOfDoe (doeOfDay z), dayOfDoe (doeOfDay z))

/-! ## ISO 8601 parsing (ECMAScript date-time string format)

`jsParse s` models `Date.parse(s)` / `new Date(s).getTime()`, returning
`none` for an invalid date.  It covers the date-time grammars exercised by
this code base: `YYYY-MM-DDTHH:MMZ`, `YYYY-MM-DDTHH:MM±HH:MM` (the minute
grammar admitted by the validator's regex) and `YYYY-MM-DDTHH:MM:SSZ` (the
canonical form produced by the normalizer); other strings are outside the
model's domain and map to `none`. -/

/-- Two-digit field read at index `i`. -/
def readD2 (l : List Char) (i : Nat) : Int :=
  charDigit (l.getD i ' ') * 10 + charDigit (l.getD (i + 1) ' ')

/-- Four-digit field read at index `i`. -/
def readD4 (l : List Char) (i : Nat) : Int :=
  readD2 l i * 100 + readD2 l (i + 2)

/-- Character-level check of the 16-character core `YYYY-MM-DDTHH:MM`. -/
def dateTimeCoreOk (l : List Char) : Bool :=
  (l.getD 0 ' ').isDigit && (l.getD 1 ' ').isDigit &&
  (l.getD 2 ' ').isDigit && (l.getD 3 ' ').isDigit &&
  l.getD 4 ' ' == '-' && (l.getD 5 ' ').isDigit && (l.getD 6 ' ').isDigit &&
  l.getD 7 ' ' == '-' && (l.getD 8 ' ').isDigit && (l.getD 9 ' ').isDigit &&
  l.getD 10 ' ' == 'T' && (l.getD 11 ' ').isDigit && (l.getD 12 ' ').isDigit &&
  l.getD 13 ' ' == ':' && (l.getD 14 ' ').isDigit && (l.getD 15 ' ').isDigit

/-- Range validation and epoch-millisecond construction for a parsed
date-time (`MakeDay`/`MakeTime`/`TimeClip`): component ranges must be
respected and the resulting time value must be within `±8.64e15` ms. -/
def mkUTC (y mo d h mi ss offMin : Int) : Option Int :=
  if 1 ≤ mo ∧ mo ≤ 12 ∧ 1 ≤ d ∧ d ≤ daysInMonth y mo ∧
      mi ≤ 59 ∧ ss ≤ 59 ∧ (h ≤ 23 ∨ (h = 24 ∧ mi = 0 ∧ ss = 0)) then
    let t := daysFromCivil y mo d * 86400000 + h * 3600000 + mi * 60000 +
      ss * 1000 - offMin * 60000
    if t.natAbs ≤ 8640000000000000 then some t else none
  else none

/-- `Date.parse` on the supported grammars (see the section comment). -/
def jsParse (s : String) : Option Int :=
  let l := s.data
  if dateTimeCoreOk l then
    let y := readD4 l 0
    let mo := readD2 l 5
    let d := readD2 l 8
    let h := readD2 l 11
    let mi := readD2 l 14
    if l.length = 17 ∧ l.getD 16 ' ' = 'Z' then
      mkUTC y mo d h mi 0 0
    else if l.length = 22 ∧ (l.getD 16 ' ' = '+' ∨ l.getD 16 ' ' = '-') ∧
        (l.getD 17 ' ').isDigit ∧ (l.getD 18 ' ').isDigit ∧
        l.getD 19 ' ' = ':' ∧ (l.getD 20 ' ').isDigit ∧
        (l.getD 21 ' ').isDigit then
      if readD2 l 17 ≤ 23 ∧ readD2 l 20 ≤ 59 then
        mkUTC y mo d h mi 0
          (if l.getD 16 ' ' = '+' then readD2 l 17 * 60 + readD2 l 20
           else -(readD2 l 17 * 60 + readD2 l 20))
      else none
    else if l.length = 20 ∧ l.getD 16 ' ' = ':' ∧ (l.getD 17 ' ').isDigit ∧
        (l.getD 18 ' ').isDigit ∧ l.getD 19 ' ' = 'Z' then
      mkUTC y mo d h mi (readD2 l 17) 0
    else none
  else none

/-! ## ISO 8601 rendering (`Date.prototype.toISOString`) -/

/-- The digit character for `n < 10`. -/
def digitChar : Nat → Char
  | 0 => '0'
  | 1 => '1'
  | 2 => '2'
  | 3 => '3'
  | 4 => '4'
  | 5 => '5'
  | 6 => '6'
  | 7 => '7'
  | 8 => '8'
  | _ => '9'

/-- Two-digit zero-padded rendering of `n ∈ [0, 99]`. -/
def pad2 (n : Int) : List Char :=
  [digitChar (n.toNat / 10), digitChar (n.toNat % 10)]

/-- Three-digit zero-padded rendering of `n ∈ [0, 999]`. -/
def pad3 (n : Int) : List Char :=
  [digitChar (n.toNat / 100), digitChar (n.toNat / 10 % 10),
   digitChar (n.toNat % 10)]

/-- Four-digit zero-padded rendering of `n ∈ [0, 9999]`. -/
def pad4 (n : Int) : List Char :=
  [digitChar (n.toNat / 1000), digitChar (n.toNat / 100 % 10),
   digitChar (n.toNat / 10 % 10), digitChar (n.toNat % 10)]

/-- Character list of `new Date(t).toISOString()`,
`YYYY-MM-DDTHH:MM:SS.mmmZ`, defined for time values whose UTC year lies in
`[0, 9999]` (outside that range real engines use the expanded year form,
which is outside this model's domain). -/
def isoChars (t : Int) : List Char :=
  pad4 (civilFromDays (t / 86400000)).1 ++
  '-' :: pad2 (civilFromDays (t / 86400000)).2.1 ++
  '-' :: pad2 (civilFromDays (t / 86400000)).2.2 ++
  'T' :: pad2 (t % 86400000 / 3600000) ++
  ':' :: pad2 (t % 86400000 % 3600000 / 60000) ++
  ':' :: pad2 (t % 86400000 % 60000 / 1000) ++
  '.' :: pad3 (t % 86400000 % 1000) ++ ['Z']

/-- First-occurrence substring replacement,
`String.prototype.replace(pat, rep)` with a string pattern. -/
def replaceFirst (pat rep : List Char) : List Char → List Char
  | [] => if pat.isPrefixOf ([] : List Char) then rep else []
  | c :: cs =>
    if pat.isPrefixOf (c :: cs) then rep ++ (c :: cs).drop pat.length
    else c :: replaceFirst pat rep cs

/-- Model of `new Date(t).toISOString().replace(".000Z", "Z")`. -/
def isoStringNoMs (t : Int) : String :=
  ⟨replaceFirst ".000Z".data "Z".data (isoChars t)⟩

/-! ## The validation module (`backend/src/validation/appointments.ts`) -/

/-- The regex `ISO_MINUTE_NO_SECONDS =
`^\d{4}-\d{2}-\d{2}T\d{2}:\d{2}(?:Z|[+-]\d{2}:\d{2})$`, as a character-level
test: the 16-character core followed by either a final `Z` (length 17) or a
`±HH:MM` offset (length 22). -/
def isoMinuteNoSecondsTest (s : String) : Bool :=
  let l := s.data
  dateTimeCoreOk l &&
  ((l.length == 17 && l.getD 16 ' ' == 'Z') ||
   (l.length == 22 && (l.getD 16 ' ' == '+' || l.getD 16 ' ' == '-') &&
    (l.getD 17 ' ').isDigit && (l.getD 18 ' ').isDigit &&
    l.getD 19 ' ' == ':' && (l.getD 20 ' ').isDigit && (l.getD 21 ' ').isDigit))

/-- `validateStartAtMinuteOnly`: `startAt` must be a string, match the
minute-precision regex, and parse as a date. -/
def validateStartAtMinuteOnly (v : JSVal) : Option String :=
  match v with
  | .str s =>
    if !isoMinuteNoSecondsTest s then
      some "startAt must be ISO 8601 without seconds/milliseconds (e.g., 2025-09-20T18:00Z)"
    else
      match jsParse s with
      | none => some "startAt is not a valid datetime"
      | some _ => none
  | _ => some "startAt must be a string"

/-- `normalizeToIsoMinuteZ`: parse, floor the epoch milliseconds to the
minute, re-render as UTC and strip the `.000` millisecond field.  `none`
models the `RangeError` that `toISOString` throws on an invalid date. -/
def normalizeToIsoMinuteZ (s : String) : Option String :=
  match jsParse s with
  | none => none
  | some ms =>
    let minuteFloor := ms / 60000 * 60000
    some (isoStringNoMs minuteFloor)

/-- `enforceFifteenMinuteGrid`: the UTC minute (`getUTCMinutes`, i.e.
`⌊t/60000⌋ mod 60`) must be a multiple of 15.  An unparseable argument makes
`getUTCMinutes` return `NaN`, so the alignment test fails and the error is
returned. -/
def enforceFifteenMinuteGrid (isoMinuteZ : String) : Option String :=
  match jsParse isoMinuteZ with
  | some t =>
    if t / 60000 % 60 % 15 = 0 then none
    else some "startAt must align to 15-minute increments"
  | none => some "startAt must align to 15-minute increments"

/-- The `serviceId` condition of `validateAppointment`:
`typeof serviceId !== "number" || !Number.isInteger(serviceId) ||
serviceId <= 0`.  Modelled numbers are integer-valued, so `Number.isInteger`
holds of every `num` and fails of `nan`. -/
def serviceIdBad : JSVal → Bool
  | .num n => decide (n ≤ 0)
  | _ => true

/-- The `clientName` condition of `validateAppointment`:
`typeof clientName !== "string" || clientName.trim().length === 0`. -/
def clientNameBad : JSVal → Bool
  | .str s => (jsTrim s).isEmpty
  | _ => true

/-- The email regex `/^[^\s@]+@[^\s@]+\.[^\s@]+$/`: a nonempty local part
free of whitespace and `@`, one `@`, and a domain free of whitespace and `@`
that splits at some dot into a nonempty prefix and a nonempty suffix. -/
def emailRegexTest (s : String) : Bool :=
  let l := s.data
  let a := l.takeWhile (fun c => c != '@')
  let b := l.drop (a.length + 1)
  decide (a.length + 1 ≤ l.length) &&
  !b.any (fun c => c == '@') &&
  !a.isEmpty &&
  a.all (fun c => !jsWhitespace c) &&
  b.all (fun c => !jsWhitespace c) &&
  decide (∃ i : Fin b.length, 1 ≤ i.val ∧ i.val + 1 < b.length ∧ b.get i = '.')

/-- One `errors.push(msg)` guarded by a condition. -/
def pushIf (c : Bool) (msg : String) (errors : List String) : List String :=
  if c then errors ++ [msg] else errors

/-- The `startAt` push of `validateAppointment`:
`if (startErr) errors.push(startErr)`. -/
def startAtPush (v : JSVal) (errors : List String) : List String :=
  match validateStartAtMinuteOnly v with
  | some e => errors ++ [e]
  | none => errors

/-- The email block of `validateAppointment`: if a nonempty string is
present, check the format and the length cap. -/
def emailChecksPush (v : JSVal) (errors : List String) : List String :=
  match v with
  | .str s =>
    if 0 < s.length then
      let errors := pushIf (!emailRegexTest s)
        "clientEmail must be a valid email address" errors
      pushIf (decide (255 < s.length)) "clientEmail is too long" errors
    else errors
  | _ => errors

/-- The phone block of `validateAppointment`: if a nonempty string is
present, check both length bounds. -/
def phoneChecksPush (v : JSVal) (errors : List String) : List String :=
  match v with
  | .str s =>
    if 0 < s.length then
      let errors := pushIf (decide (s.length < 7))
        "clientPhone must be at least 7 digits long" errors
      pushIf (decide (40 < s.length)) "clientPhone is too long" errors
    else errors
  | _ => errors

/-- The name-length cap of `validateAppointment`. -/
def nameLengthPush (v : JSVal) (errors : List String) : List String :=
  match v with
  | .str s => pushIf (decide (120 < (jsTrim s).length)) "clientName is too long" errors
  | _ => errors

/-- `validateAppointment`: runs every field check in declaration order,
pushing each failure's message onto the error list. -/
def validateAppointment (p : Payload) : List String :=
  let errors : List String := []
  let errors := pushIf (serviceIdBad p.serviceId)
    "serviceId must be a positive integer" errors
  let errors := startAtPush p.startAt errors
  let errors := pushIf (clientNameBad p.clientName) "clientName is required" errors
  let errors := pushIf (!p.clientEmail.truthy && !p.clientPhone.truthy)
    "Either clientEmail or clientPhone must be provided" errors
  let errors := emailChecksPush p.clientEmail errors
  let errors := phoneChecksPush p.clientPhone errors
  let errors := nameLengthPush p.clientName errors
  errors

/-- `normalizeAppointment`: shallow-copy the payload, trim and cap the PII
fields, coerce `serviceId`, canonicalize `startAt`.  `none` models the
exception thrown when `startAt` does not parse. -/
def normalizeAppointment (p : Payload) : Option Payload :=
  let clientName := JSVal.str ⟨(jsTrim (jsToString p.clientName)).data.take 120⟩
  let clientEmail := if p.clientEmail.truthy then
      JSVal.str ⟨((jsTrim (jsToString p.clientEmail)).data.map Char.toLower).take 255⟩
    else p.clientEmail
  let clientPhone := if p.clientPhone.truthy then
      JSVal.str ⟨(jsTrim (jsToString p.clientPhone)).data.take 40⟩
    else p.clientPhone
  let serviceId := jsToNumber p.serviceId
  match normalizeToIsoMinuteZ (jsToString p.startAt) with
  | none => none
  | some t =>
    some { serviceId := serviceId, startAt := JSVal.str t,
           clientName := clientName, clientEmail := clientEmail,
           clientPhone := clientPhone }

/-- `computeEndAt`: add `durationMin` minutes to the parsed start and
re-render without milliseconds.  `none` models the exception thrown when the
start does not parse or the sum leaves the representable `Date` range. -/
def computeEndAt (startIso : String) (durationMin : Int) : Option String :=
  match jsParse startIso with
  | none => none
  | some ms =>
    let t := ms + durationMin * 60000
    if t.natAbs ≤ 8640000000000000 then some (isoStringNoMs t) else none

/-! ## The intake orchestrator (`POST /appointments` in `app.ts`) -/

/-- The record the route assembles for the parameterized insert, together
with the fixed `status = 'pending'` of that insert. -/
structure AppointmentRecord where
  id : String
  serviceId : JSVal
  startAt : String
  endAt : String
  clientName : JSVal
  clientEmail : JSVal
  clientPhone : JSVal
  status : String
  confirmToken : String
  cancelToken : String
deriving DecidableEq

/-- Outcome of one request: an HTTP rejection with an error list, an
acceptance carrying the assembled record, or an uncaught exception handed to
the error middleware. -/
inductive IntakeResult where
  | reject : Nat → List String → IntakeResult
  | accept : Nat → AppointmentRecord → IntakeResult
  | fault : IntakeResult
deriving DecidableEq

/-- The `POST /appointments` handler: validate, normalize, optional grid
check (`gridWired` models the `typeof enforceFifteenMinuteGrid ===
"function"` guard), future-time check against `now` (`Date.now()`), end-time
computation with the fixed 60-minute placeholder duration, record assembly
with the supplied identifiers. -/
def postAppointments (now : Int) (gridWired : Bool)
    (id confirmToken cancelToken : String) (body : Payload) : IntakeResult :=
  let errors := validateAppointment body
  if 0 < errors.length then .reject 400 errors
  else
    match normalizeAppointment body with
    | none => .fault
    | some data =>
      let gridErr := if gridWired then
          enforceFifteenMinuteGrid (jsToString data.startAt) else none
      match gridErr with
      | some g => .reject 400 [g]
      | none =>
        match jsParse (jsToString data.startAt) with
        | none => .reject 400 ["startAt must be in the future"]
        | some startMs =>
          if startMs ≤ now then
            .reject 400 ["startAt must be in the future"]
          else
            match computeEndAt (jsToString data.startAt) 60 with
            | none => .fault
            | some endAt =>
              .accept 202
                { id := id, serviceId := data.serviceId,
                  startAt := jsToString data.startAt, endAt := endAt,
                  clientName := data.clientName,
                  clientEmail := data.clientEmail,
                  clientPhone := data.clientPhone, status := "pending",
                  confirmToken := confirmToken, cancelToken := cancelToken }

/-! ## Heap model of `normalizeAppointment`

To state that `normalizeAppointment` never mutates its argument (it writes
only to the shallow copy `d = { ...data }`), the function is re-played
against an explicit object heap: objects live in a list, references are
indices, the spread allocates a fresh object, and every assignment of the
source writes through the fresh reference, in source order.  The returned
reference is `none` when the `startAt` canonicalization throws. -/

/-- One step `ref.field := value` of the heap model. -/
def heapSet (H : List Payload) (r : Nat) (f : Payload → Payload) : List Payload :=
  H.set r (f (H.getD r emptyPayload))

/-- `normalizeAppointment(data)` against the heap `H`, with `data` the
object at index `r`: allocate the copy, then perform the source's writes on
the copy. -/
def normalizeAppointmentHeap (H : List Payload) (r : Nat) :
    List Payload × Option Nat :=
  let rd := H.length
  let H1 := H ++ [H.getD r emptyPayload]
  let H2 := heapSet H1 rd (fun o =>
    { o with clientName := JSVal.str ⟨(jsTrim (jsToString o.clientName)).data.take 120⟩ })
  let H3 := if (H2.getD rd emptyPayload).clientEmail.truthy then
      heapSet H2 rd (fun o =>
        { o with clientEmail := JSVal.str ⟨((jsTrim (jsToString o.clientEmail)).data.map Char.toLower).take 255⟩ })
    else H2
  let H4 := if (H3.getD rd emptyPayload).clientPhone.truthy then
      heapSet H3 rd (fun o =>
        { o with clientPhone := JSVal.str ⟨(jsTrim (jsToString o.clientPhone)).data.take 40⟩ })
    else H3
  let H5 := heapSet H4 rd (fun o => { o with serviceId := jsToNumber o.serviceId })
  match normalizeToIsoMinuteZ (jsToString ((H5.getD rd emptyPayload).startAt)) with
  | none => (H5, none)
  | some t => (heapSet H5 rd (fun o => { o with startAt := JSVal.str t }), some rd)

/-! ## Per-field error segments

The error messages each individual rule contributes, used to state that
`validateAppointment` runs every check unconditionally and returns the
messages in field-declaration order. -/

/-- Errors contributed by the `serviceId` rule. -/
def serviceIdErrors (v : JSVal) : List String :=
  if serviceIdBad v then ["serviceId must be a positive integer"] else []

/-- Errors contributed by the `startAt` rule. -/
def startAtErrors (v : JSVal) : List String :=
  match validateStartAtMinuteOnly v with
  | some e => [e]
  | none => []

/-- Errors contributed by the `clientName` presence rule. -/
def clientNameRequiredErrors (v : JSVal) : List String :=
  if clientNameBad v then ["clientName is required"] else []

/-- Errors contributed by the contact-presence rule. -/
def contactPresenceErrors (e p : JSVal) : List String :=
  if !e.truthy && !p.truthy then
    ["Either clientEmail or clientPhone must be provided"]
  else []

/-- Errors contributed by the email format and length rules. -/
def clientEmailErrors (v : JSVal) : List String :=
  match v with
  | .str s =>
    if 0 < s.length then
      (if !emailRegexTest s then ["clientEmail must be a valid email address"]
       else []) ++
      (if 255 < s.length then ["clientEmail is too long"] else [])
    else []
  | _ => []

/-- Errors contributed by the phone length rules. -/
def clientPhoneErrors (v : JSVal) : List String :=
  match v with
  | .str s =>
    if 0 < s.length then
      (if s.length < 7 then ["clientPhone must be at least 7 digits long"]
       else []) ++
      (if 40 < s.length then ["clientPhone is too long"] else [])
    else []
  | _ => []

/-- Errors contributed by the `clientName` length cap. -/
def clientNameLengthErrors (v : JSVal) : List String :=
  match v with
  | .str s => if 120 < (jsTrim s).length then ["clientName is too long"] else []
  | _ => []

/-! ## Concrete payloads used by the claims -/

/-- The end-to-end example payload of the specification. -/
def janePayload : Payload :=
  { serviceId := .num 1, startAt := .str "2025-09-20T18:00Z",
    clientName := .str "Jane Doe", clientEmail := .str "jane@example.com",
    clientPhone := .undef }

/-- A payload whose phone passes the untrimmed length check but trims down
to a single character. -/
def paddedPhonePayload : Payload :=
  { serviceId := .num 1, startAt := .str "2025-09-20T18:00Z",
    clientName := .str "Jane Doe", clientEmail := .undef,
    clientPhone := .str "1      " }

/-- A payload with a numeric (non-string) phone. -/
def numericPhonePayload : Payload :=
  { serviceId := .num 1, startAt := .str "2025-09-20T18:00Z",
    clientName := .str "Jane Doe", clientEmail := .undef,
    clientPhone := .num 5 }

/-- A payload with an invalid `serviceId` and a past `startAt`. -/
def pastInvalidPayload : Payload :=
  { serviceId := .num 0, startAt := .str "2020-01-01T00:00Z",
    clientName := .str "Jane Doe", clientEmail := .str "jane@example.com",
    clientPhone := .undef }

/-! ## Canonical-form descriptions used by the theorems -/

/-- The character list of a canonical minute-level UTC timestamp
`YYYY-MM-DDTHH:MM:00Z` with the given field values. -/
def canonChars (y mo d h mi : Int) : List Char :=
  pad4 y ++ '-' :: pad2 mo ++ '-' :: pad2 d ++ 'T' :: pad2 h ++
  ':' :: pad2 mi ++ [':', '0', '0', 'Z']

/-- Character-level test for the canonical form `YYYY-MM-DDTHH:MM:00Z`. -/
def canonicalShapeTest (s : String) : Bool :=
  dateTimeCoreOk s.data && s.data.length == 20 && s.data.getD 16 ' ' == ':' &&
  s.data.getD 17 ' ' == '0' && s.data.getD 18 ' ' == '0' &&
  s.data.getD 19 ' ' == 'Z'

/-- The minute-canonicalization `normalizeToIsoMinuteZ` applies to an
instant: floor to the minute and render without milliseconds. -/
def minuteCanonicalOfInstant (t : Int) : String :=
  isoStringNoMs (t / 60000 * 60000)

/-! ## Theorems: the civil-calendar layer -/

/-- Core arithmetic of the civil-date cycle decomposition, on flat
variables: re-encoding the decomposed date gives back the day-of-era, and
the components are a valid calendar date. -/
theorem civilCore (era doe c0 c r1 q r2 ry0 ry doy yoe mp d m y : Int)
    (hdoe : 0 ≤ doe ∧ doe < 146097)
    (hc0 : 36524 * c0 ≤ doe ∧ doe < 36524 * c0 + 36524)
    (hc : c = if 3 ≤ c0 then 3 else c0)
    (hr1 : r1 = doe - 36524 * c)
    (hq : 1461 * q ≤ r1 ∧ r1 < 1461 * q + 1461)
    (hr2 : r2 = r1 - 1461 * q)
    (hry0 : 365 * ry0 ≤ r2 ∧ r2 < 365 * ry0 + 365)
    (hry : ry = if 3 ≤ ry0 then 3 else ry0)
    (hdoy : doy = r2 - 365 * ry)
    (hyoe : yoe = 100 * c + 4 * q + ry)
    (hmp : 153 * mp ≤ 5 * doy + 2 ∧ 5 * doy + 2 < 153 * mp + 153)
    (hd : d = doy - (153 * mp + 2) / 5 + 1)
    (hm : m = mp + (if mp < 10 then 3 else -9))
    (hy : y = (if m ≤ 2 then era * 400 + yoe + 1 else era * 400 + yoe)) :
    daysFromCivil y m d = era * 146097 + doe - 719468 ∧
    1 ≤ m ∧ m ≤ 12 ∧ 1 ≤ d ∧ d ≤ daysInMonth y m := by
  have hc' : 0 ≤ c ∧ c ≤ 3 ∧ 36524 * c ≤ doe ∧
      (doe < 36524 * c + 36524 ∨ c = 3) := by
    split at hc <;> omega
  have hr1' : 0 ≤ r1 ∧ r1 ≤ 36524 := by omega
  have hq' : 0 ≤ q ∧ q ≤ 24 := by omega
  have hr2' : 0 ≤ r2 ∧ r2 ≤ 1460 := by omega
  have hry' : 0 ≤ ry ∧ ry ≤ 3 ∧ 365 * ry ≤ r2 ∧
      (r2 < 365 * ry + 365 ∨ ry = 3) := by
    split at hry <;> omega
  have hdoy' : 0 ≤ doy ∧ doy ≤ 365 := by omega
  have hyoe' : 0 ≤ yoe ∧ yoe ≤ 399 := by omega
  have hmp' : 0 ≤ mp ∧ mp ≤ 11 := by omega
  have hdB : 1 ≤ d ∧ d ≤ 31 := by omega
  have hmB : 1 ≤ m ∧ m ≤ 12 := by split at hm <;> omega
  have e3 : (m + 9) % 12 = mp := by split at hm <;> omega
  have g4 : yoe / 4 = 25 * c + q := by omega
  have g100 : yoe / 100 = c := by omega
  have e4 : 365 * yoe + yoe / 4 - yoe / 100 + doy = doe := by omega
  have e5 : (era * 400 + yoe) / 400 = era := by omega
  refine ⟨?_, hmB.1, hmB.2, hdB.1, ?_⟩
  · unfold daysFromCivil
    simp only []
    split
    · have hy1 : y - 1 = era * 400 + yoe := by split at hy <;> omega
      rw [hy1, e5, show era * 400 + yoe - era * 400 = yoe from by ring, e3]
      omega
    · have hy2 : y = era * 400 + yoe := by split at hy <;> omega
      rw [hy2, e5, show era * 400 + yoe - era * 400 = yoe from by ring, e3]
      omega
  · unfold daysInMonth isLeap
    split
    · have hmp11 : mp = 11 := by split at hm <;> omega
      have hyv : y = era * 400 + yoe + 1 := by split at hy <;> omega
      split
      · omega
      · rename_i hnl
        simp only [Bool.or_eq_true, Bool.and_eq_true, beq_iff_eq, bne_iff_ne,
          ne_eq, not_or, not_and, Decidable.not_not,
          Bool.not_eq_true] at hnl
        omega
    · split
      · have : mp = 1 ∨ mp = 3 ∨ mp = 6 ∨ mp = 8 := by split at hm <;> omega
        omega
      · omega

/-- Round trip of the calendar mappings: re-encoding the civil date of a
day number gives back the day number, and the date is valid. -/
theorem civilFromDays_spec (z y m d : Int) (h : civilFromDays z = (y, m, d)) :
    daysFromCivil y m d = z ∧ 1 ≤ m ∧ m ≤ 12 ∧ 1 ≤ d ∧ d ≤ daysInMonth y m := by
  rw [civilFromDays, Prod.mk.injEq, Prod.mk.injEq] at h
  obtain ⟨hy, hm, hd⟩ := h
  have hdoe : 0 ≤ doeOfDay z ∧ doeOfDay z < 146097 := by
    unfold doeOfDay eraOfDay; omega
  have h0 := civilCore (eraOfDay z) (doeOfDay z)
    (doeOfDay z / 36524) (cOfDoe (doeOfDay z))
    (r1OfDoe (doeOfDay z)) (qOfDoe (doeOfDay z)) (r2OfDoe (doeOfDay z))
    (r2OfDoe (doeOfDay z) / 365) (ryOfDoe (doeOfDay z))
    (doyOfDoe (doeOfDay z)) (yoeOfDoe (doeOfDay z)) (mpOfDoe (doeOfDay z))
    (dayOfDoe (doeOfDay z)) (monthOfDoe (doeOfDay z)) y
    hdoe (by omega) rfl rfl (by unfold qOfDoe; omega) rfl
    (by omega) rfl rfl rfl (by unfold mpOfDoe; omega) rfl rfl hy.symm
  have hz : eraOfDay z * 146097 + doeOfDay z - 719468 = z := by
    unfold doeOfDay; omega
  rw [hz, hm, hd] at h0
  exact h0

/-- Every month has at most 31 days. -/
theorem daysInMonth_le (y m : Int) : daysInMonth y m ≤ 31 := by
  unfold daysInMonth
  split
  · split <;> omega
  · split <;> omega

/-- Every month has at least 28 days. -/
theorem daysInMonth_ge (y m : Int) : 28 ≤ daysInMonth y m := by
  unfold daysInMonth
  split
  · split <;> omega
  · split <;> omega

/-- Day-number bounds of dates with a four-digit year. -/
theorem daysFromCivil_bounds (y mo d : Int) (hy : 0 ≤ y) (hy2 : y ≤ 9999)
    (hmo : 1 ≤ mo) (hmo2 : mo ≤ 12) (hd : 1 ≤ d) (hd2 : d ≤ 31) :
    -719528 ≤ daysFromCivil y mo d ∧ daysFromCivil y mo d ≤ 2932896 := by
  unfold daysFromCivil
  simp only []
  have hi : 0 ≤ (153 * ((mo + 9) % 12) + 2) / 5 ∧
      (153 * ((mo + 9) % 12) + 2) / 5 ≤ 337 := by omega
  split
  · rename_i hm2
    have hmp10 : (mo + 9) % 12 = mo + 9 := by omega
    have hera : -1 ≤ (y - 1) / 400 ∧ (y - 1) / 400 ≤ 24 := by omega
    have hyoe : 0 ≤ y - 1 - (y - 1) / 400 * 400 ∧
        y - 1 - (y - 1) / 400 * 400 ≤ 399 := by omega
    have hcap : (y - 1) / 400 = 24 → y - 1 - (y - 1) / 400 * 400 ≤ 398 := by
      omega
    have hneg : (y - 1) / 400 = -1 → y - 1 - (y - 1) / 400 * 400 = 399 := by
      omega
    have hf : 0 ≤ (y - 1 - (y - 1) / 400 * 400) / 4 ∧
        (y - 1 - (y - 1) / 400 * 400) / 4 ≤ 99 := by omega
    have hg : 0 ≤ (y - 1 - (y - 1) / 400 * 400) / 100 ∧
        (y - 1 - (y - 1) / 400 * 400) / 100 ≤ 3 := by omega
    have hfneg : y - 1 - (y - 1) / 400 * 400 = 399 →
        (y - 1 - (y - 1) / 400 * 400) / 4 = 99 ∧
        (y - 1 - (y - 1) / 400 * 400) / 100 = 3 := by omega
    have hi10 : 306 ≤ (153 * ((mo + 9) % 12) + 2) / 5 := by omega
    omega
  · rename_i hm2
    have hmp9 : (mo + 9) % 12 = mo - 3 := by omega
    have hi9 : (153 * ((mo + 9) % 12) + 2) / 5 ≤ 275 := by omega
    have hera : 0 ≤ y / 400 ∧ y / 400 ≤ 24 := by omega
    have hyoe : 0 ≤ y - y / 400 * 400 ∧ y - y / 400 * 400 ≤ 399 := by omega
    have hf : 0 ≤ (y - y / 400 * 400) / 4 ∧ (y - y / 400 * 400) / 4 ≤ 99 := by
      omega
    have hg : 0 ≤ (y - y / 400 * 400) / 100 ∧ (y - y / 400 * 400) / 100 ≤ 3 := by
      omega
    have hcap : y / 400 = 24 → y - y / 400 * 400 ≤ 399 := by omega
    omega

/-- A valid date whose day number lies in the four-digit-year day range has
a four-digit year. -/
theorem daysFromCivil_year_bounds (y mo d z : Int) (h : daysFromCivil y mo d = z)
    (hmo : 1 ≤ mo ∧ mo ≤ 12) (hd : 1 ≤ d ∧ d ≤ 31)
    (hz : -719528 ≤ z ∧ z ≤ 2932896) : 0 ≤ y ∧ y ≤ 9999 := by
  unfold daysFromCivil at h
  simp only [] at h
  have hi : 0 ≤ (153 * ((mo + 9) % 12) + 2) / 5 ∧
      (153 * ((mo + 9) % 12) + 2) / 5 ≤ 337 := by omega
  split at h
  · rename_i hm2
    have hmp10 : (mo + 9) % 12 = mo + 9 := by omega
    have hi10 : 306 ≤ (153 * ((mo + 9) % 12) + 2) / 5 := by omega
    have hyoe : 0 ≤ y - 1 - (y - 1) / 400 * 400 ∧
        y - 1 - (y - 1) / 400 * 400 ≤ 399 := by omega
    have hf : 0 ≤ (y - 1 - (y - 1) / 400 * 400) / 4 ∧
        (y - 1 - (y - 1) / 400 * 400) / 4 ≤ 99 := by omega
    have hg : 0 ≤ (y - 1 - (y - 1) / 400 * 400) / 100 ∧
        (y - 1 - (y - 1) / 400 * 400) / 100 ≤ 3 := by omega
    have hup : y - 1 ≥ 9999 → (y - 1) / 400 ≥ 24 := by omega
    have hdn : y ≤ -1 → (y - 1) / 400 ≤ -1 := by omega
    omega
  · rename_i hm2
    have hmp9 : (mo + 9) % 12 = mo - 3 := by omega
    have hi9 : (153 * ((mo + 9) % 12) + 2) / 5 ≤ 275 := by omega
    have hyoe : 0 ≤ y - y / 400 * 400 ∧ y - y / 400 * 400 ≤ 399 := by omega
    have hf : 0 ≤ (y - y / 400 * 400) / 4 ∧ (y - y / 400 * 400) / 4 ≤ 99 := by
      omega
    have hg : 0 ≤ (y - y / 400 * 400) / 100 ∧ (y - y / 400 * 400) / 100 ≤ 3 := by
      omega
    have hup : y ≥ 10000 → y / 400 ≥ 25 := by omega
    have hdn : y ≤ -1 → y / 400 ≤ -1 := by omega
    omega

/-! ## Theorems: digits, rendering and re-parsing -/

/-- Digit characters are digits. -/
theorem digitChar_isDigit (n : Nat) : (digitChar n).isDigit = true := by
  unfold digitChar
  split <;> decide

/-- Reading back a rendered digit. -/
theorem charDigit_digitChar (n : Nat) (h : n < 10) :
    charDigit (digitChar n) = n := by
  interval_cases n <;> decide

/-- Digit characters are not the dot. -/
theorem digitChar_ne_dot (n : Nat) : digitChar n ≠ '.' := by
  unfold digitChar
  split <;> decide

/-- `replaceFirst` steps over a head that does not start the pattern. -/
theorem replaceFirst_skip (p rep : List Char) (c : Char) (cs : List Char)
    (hc : c ≠ '.') :
    replaceFirst ('.' :: p) rep (c :: cs) =
      c :: replaceFirst ('.' :: p) rep cs := by
  have hpre : List.isPrefixOf ('.' :: p) (c :: cs) = false := by
    simp only [List.isPrefixOf_cons₂, Bool.and_eq_false_iff]
    left
    simp [Ne.symm hc]
  simp only [replaceFirst, hpre]
  simp

/-- Milliseconds of a minute-aligned time value render as `.000`, seconds
as `00`. -/
theorem isoChars_aligned (t : Int) (ht : t % 60000 = 0) :
    isoChars t =
      pad4 (civilFromDays (t / 86400000)).1 ++
      '-' :: pad2 (civilFromDays (t / 86400000)).2.1 ++
      '-' :: pad2 (civilFromDays (t / 86400000)).2.2 ++
      'T' :: pad2 (t % 86400000 / 3600000) ++
      ':' :: pad2 (t % 86400000 % 3600000 / 60000) ++
      ([':', '0', '0', '.', '0', '0', '0', 'Z'] : List Char) := by
  unfold isoChars
  rw [show t % 86400000 % 60000 / 1000 = 0 from by omega,
      show t % 86400000 % 1000 = 0 from by omega]
  rfl

/-- The canonical rendering of a minute-aligned time value,
character by character. -/
theorem isoStringNoMs_data (t : Int) (ht : t % 60000 = 0) :
    (isoStringNoMs t).data =
      canonChars (civilFromDays (t / 86400000)).1
        (civilFromDays (t / 86400000)).2.1 (civilFromDays (t / 86400000)).2.2
        (t % 86400000 / 3600000) (t % 86400000 % 3600000 / 60000) := by
  show replaceFirst ".000Z".data "Z".data (isoChars t) = _
  rw [isoChars_aligned t ht,
      show ".000Z".data = '.' :: '0' :: '0' :: '0' :: 'Z' :: [] from rfl,
      show "Z".data = ['Z'] from rfl]
  simp only [canonChars, pad4, pad2, List.cons_append, List.nil_append]
  rw [replaceFirst_skip _ _ _ _ (digitChar_ne_dot _),
      replaceFirst_skip _ _ _ _ (digitChar_ne_dot _),
      replaceFirst_skip _ _ _ _ (digitChar_ne_dot _),
      replaceFirst_skip _ _ _ _ (digitChar_ne_dot _),
      replaceFirst_skip _ _ _ _ (by decide),
      replaceFirst_skip _ _ _ _ (digitChar_ne_dot _),
      replaceFirst_skip _ _ _ _ (digitChar_ne_dot _),
      replaceFirst_skip _ _ _ _ (by decide),
      replaceFirst_skip _ _ _ _ (digitChar_ne_dot _),
      replaceFirst_skip _ _ _ _ (digitChar_ne_dot _),
      replaceFirst_skip _ _ _ _ (by decide),
      replaceFirst_skip _ _ _ _ (digitChar_ne_dot _),
      replaceFirst_skip _ _ _ _ (digitChar_ne_dot _),
      replaceFirst_skip _ _ _ _ (by decide),
      replaceFirst_skip _ _ _ _ (digitChar_ne_dot _),
      replaceFirst_skip _ _ _ _ (digitChar_ne_dot _),
      replaceFirst_skip _ _ _ _ (by decide),
      replaceFirst_skip _ _ _ _ (by decide),
      replaceFirst_skip _ _ _ _ (by decide)]
  rfl

/-- Parsing a string in canonical form with in-range fields. -/
theorem parse_canonical (s : String) (y mo d h mi : Int)
    (hs : s.data = canonChars y mo d h mi)
    (hy : 0 ≤ y) (hy2 : y ≤ 9999) (hmo : 1 ≤ mo) (hmo2 : mo ≤ 12)
    (hd : 1 ≤ d) (hd2 : d ≤ daysInMonth y mo)
    (hh : 0 ≤ h) (hh2 : h ≤ 23) (hmi : 0 ≤ mi) (hmi2 : mi ≤ 59) :
    jsParse s =
      some (daysFromCivil y mo d * 86400000 + h * 3600000 + mi * 60000) := by
  have hd31 : d ≤ 31 := le_trans hd2 (daysInMonth_le y mo)
  have hchain : s.data =
      digitChar (y.toNat / 1000) :: digitChar (y.toNat / 100 % 10) ::
      digitChar (y.toNat / 10 % 10) :: digitChar (y.toNat % 10) ::
      '-' :: digitChar (mo.toNat / 10) :: digitChar (mo.toNat % 10) ::
      '-' :: digitChar (d.toNat / 10) :: digitChar (d.toNat % 10) ::
      'T' :: digitChar (h.toNat / 10) :: digitChar (h.toNat % 10) ::
      ':' :: digitChar (mi.toNat / 10) :: digitChar (mi.toNat % 10) ::
      ':' :: '0' :: '0' :: 'Z' :: [] := by
    rw [hs]
    simp only [canonChars, pad4, pad2, List.cons_append, List.nil_append]
  have hcore : dateTimeCoreOk s.data = true := by
    rw [hchain]
    simp [dateTimeCoreOk, List.getD_cons_zero, List.getD_cons_succ,
      digitChar_isDigit]
  have h0 : readD4 s.data 0 = y := by
    rw [hchain]
    simp only [readD4, readD2, List.getD_cons_zero, List.getD_cons_succ]
    rw [charDigit_digitChar _ (by omega), charDigit_digitChar _ (by omega),
      charDigit_digitChar _ (by omega), charDigit_digitChar _ (by omega)]
    omega
  have h5 : readD2 s.data 5 = mo := by
    rw [hchain]
    simp only [readD2, List.getD_cons_zero, List.getD_cons_succ]
    rw [charDigit_digitChar _ (by omega), charDigit_digitChar _ (by omega)]
    omega
  have h8 : readD2 s.data 8 = d := by
    rw [hchain]
    simp only [readD2, List.getD_cons_zero, List.getD_cons_succ]
    rw [charDigit_digitChar _ (by omega), charDigit_digitChar _ (by omega)]
    omega
  have h11 : readD2 s.data 11 = h := by
    rw [hchain]
    simp only [readD2, List.getD_cons_zero, List.getD_cons_succ]
    rw [charDigit_digitChar _ (by omega), charDigit_digitChar _ (by omega)]
    omega
  have h14 : readD2 s.data 14 = mi := by
    rw [hchain]
    simp only [readD2, List.getD_cons_zero, List.getD_cons_succ]
    rw [charDigit_digitChar _ (by omega), charDigit_digitChar _ (by omega)]
    omega
  have h17 : readD2 s.data 17 = 0 := by rw [hchain]; rfl
  have hlen : s.data.length = 20 := by rw [hchain]; rfl
  have hg16 : s.data.getD 16 ' ' = ':' := by rw [hchain]; rfl
  have hg17 : s.data.getD 17 ' ' = '0' := by rw [hchain]; rfl
  have hg18 : s.data.getD 18 ' ' = '0' := by rw [hchain]; rfl
  have hg19 : s.data.getD 19 ' ' = 'Z' := by rw [hchain]; rfl
  rw [jsParse]
  simp only [hcore, if_true]
  rw [if_neg (by rw [hlen]; simp), if_neg (by rw [hlen]; simp),
    if_pos ⟨hlen, hg16, by rw [hg17]; decide, by rw [hg18]; decide, hg19⟩,
    h0, h5, h8, h11, h14, h17, mkUTC]
  rw [if_pos ⟨hmo, hmo2, hd, hd2, hmi2, by omega, Or.inl hh2⟩]
  have hb := daysFromCivil_bounds y mo d hy hy2 hmo hmo2 hd hd31
  rw [if_pos (by omega)]
  congr 1
  ring

/-- Re-parsing the canonical rendering of a minute-aligned in-range time
value gives back the value. -/
theorem parse_isoStringNoMs (t : Int) (ht : t % 60000 = 0)
    (h1 : -719528 ≤ t / 86400000) (h2 : t / 86400000 ≤ 2932896) :
    jsParse (isoStringNoMs t) = some t := by
  obtain ⟨y, mo, d, hc⟩ : ∃ a b c, civilFromDays (t / 86400000) = (a, b, c) :=
    ⟨_, _, _, rfl⟩
  have spec := civilFromDays_spec _ _ _ _ hc
  have hyb := daysFromCivil_year_bounds y mo d (t / 86400000) spec.1
    ⟨spec.2.1, spec.2.2.1⟩
    ⟨spec.2.2.2.1, le_trans spec.2.2.2.2 (daysInMonth_le y mo)⟩ ⟨h1, h2⟩
  have hdata := isoStringNoMs_data t ht
  rw [hc] at hdata
  have hp := parse_canonical (isoStringNoMs t) y mo d
    (t % 86400000 / 3600000) (t % 86400000 % 3600000 / 60000) hdata
    hyb.1 hyb.2 spec.2.1 spec.2.2.1 spec.2.2.2.1 spec.2.2.2.2
    (by omega) (by omega) (by omega) (by omega)
  rw [hp, spec.1]
  congr 1
  omega

/-- Inversion of a successful `mkUTC`. -/
theorem mkUTC_some (y mo d h mi ss off t : Int)
    (ht : mkUTC y mo d h mi ss off = some t) :
    t = daysFromCivil y mo d * 86400000 + h * 3600000 + mi * 60000 +
      ss * 1000 - off * 60000 := by
  rw [mkUTC] at ht
  split at ht
  · simp only [] at ht
    split at ht
    · injection ht with hh
      omega
    · exact absurd ht (by simp)
  · exact absurd ht (by simp)

/-- A string admitted by the minute-precision regex parses to a
minute-aligned time value. -/
theorem jsParse_minute_aligned (s : String) (ms : Int)
    (htest : isoMinuteNoSecondsTest s = true) (hp : jsParse s = some ms) :
    ms % 60000 = 0 := by
  rw [isoMinuteNoSecondsTest] at htest
  simp only [Bool.and_eq_true, Bool.or_eq_true, beq_iff_eq, and_assoc] at htest
  rw [jsParse] at hp
  simp only [] at hp
  rw [if_pos htest.1] at hp
  rcases htest.2 with ⟨h17, hz⟩ | ⟨h22, hsign, hd17, hd18, hc19, hd20, hd21⟩
  · rw [if_pos ⟨h17, hz⟩] at hp
    have := mkUTC_some _ _ _ _ _ _ _ _ hp
    omega
  · rw [if_neg (by simp [h22]), if_pos ⟨h22, hsign, hd17, hd18, hc19, hd20, hd21⟩] at hp
    split at hp
    · have := mkUTC_some _ _ _ _ _ _ _ _ hp
      omega
    · exact absurd hp (by simp)

/-! ## Theorems: the validator decomposes into ordered field segments -/

/-- The sequential error-pushing structure of `validateAppointment` equals
the concatenation of the per-field segments, in field-declaration order. -/
theorem validateAppointment_eq (p : Payload) :
    validateAppointment p =
      serviceIdErrors p.serviceId ++ startAtErrors p.startAt ++
      clientNameRequiredErrors p.clientName ++
      contactPresenceErrors p.clientEmail p.clientPhone ++
      clientEmailErrors p.clientEmail ++ clientPhoneErrors p.clientPhone ++
      clientNameLengthErrors p.clientName := by
  have hpush : ∀ (c : Bool) (msg : String) (l : List String),
      pushIf c msg l = l ++ (if c then [msg] else []) := by
    intro c msg l
    unfold pushIf
    split <;> simp
  have hstart : ∀ (v : JSVal) (l : List String),
      startAtPush v l = l ++ startAtErrors v := by
    intro v l
    unfold startAtPush startAtErrors
    cases validateStartAtMinuteOnly v <;> simp
  have hemail : ∀ (v : JSVal) (l : List String),
      emailChecksPush v l = l ++ clientEmailErrors v := by
    intro v l
    unfold emailChecksPush clientEmailErrors
    cases v <;> simp only [hpush, List.append_nil, List.append_assoc]
    split <;> simp [hpush]
  have hphone : ∀ (v : JSVal) (l : List String),
      phoneChecksPush v l = l ++ clientPhoneErrors v := by
    intro v l
    unfold phoneChecksPush clientPhoneErrors
    cases v <;> simp only [hpush, List.append_nil, List.append_assoc]
    split <;> simp [hpush]
  have hname : ∀ (v : JSVal) (l : List String),
      nameLengthPush v l = l ++ clientNameLengthErrors v := by
    intro v l
    unfold nameLengthPush clientNameLengthErrors
    cases v <;> simp [hpush]
  simp only [validateAppointment, hpush, hstart, hemail, hphone, hname,
    serviceIdErrors, clientNameRequiredErrors, contactPresenceErrors,
    List.nil_append, List.append_assoc]

/-- The minute field of a canonical character list reads back. -/
theorem canonChars_readD2_14 (y mo d h mi : Int) (hmi : 0 ≤ mi) (hmi2 : mi ≤ 59) :
    readD2 (canonChars y mo d h mi) 14 = mi := by
  have hchain : canonChars y mo d h mi =
      digitChar (y.toNat / 1000) :: digitChar (y.toNat / 100 % 10) ::
      digitChar (y.toNat / 10 % 10) :: digitChar (y.toNat % 10) ::
      '-' :: digitChar (mo.toNat / 10) :: digitChar (mo.toNat % 10) ::
      '-' :: digitChar (d.toNat / 10) :: digitChar (d.toNat % 10) ::
      'T' :: digitChar (h.toNat / 10) :: digitChar (h.toNat % 10) ::
      ':' :: digitChar (mi.toNat / 10) :: digitChar (mi.toNat % 10) ::
      ':' :: '0' :: '0' :: 'Z' :: [] := by
    simp only [canonChars, pad4, pad2, List.cons_append, List.nil_append]
  rw [hchain]
  simp only [readD2, List.getD_cons_zero, List.getD_cons_succ]
  rw [charDigit_digitChar _ (by omega), charDigit_digitChar _ (by omega)]
  omega

/-- A string whose characters form a canonical list passes the
canonical-shape test. -/
theorem canonicalShapeTest_canonChars (s : String) (y mo d h mi : Int)
    (hs : s.data = canonChars y mo d h mi) :
    canonicalShapeTest s = true := by
  have hchain : canonChars y mo d h mi =
      digitChar (y.toNat / 1000) :: digitChar (y.toNat / 100 % 10) ::
      digitChar (y.toNat / 10 % 10) :: digitChar (y.toNat % 10) ::
      '-' :: digitChar (mo.toNat / 10) :: digitChar (mo.toNat % 10) ::
      '-' :: digitChar (d.toNat / 10) :: digitChar (d.toNat % 10) ::
      'T' :: digitChar (h.toNat / 10) :: digitChar (h.toNat % 10) ::
      ':' :: digitChar (mi.toNat / 10) :: digitChar (mi.toNat % 10) ::
      ':' :: '0' :: '0' :: 'Z' :: [] := by
    simp only [canonChars, pad4, pad2, List.cons_append, List.nil_append]
  unfold canonicalShapeTest
  rw [hs, hchain]
  simp [dateTimeCoreOk, List.getD_cons_zero, List.getD_cons_succ,
    digitChar_isDigit]

/-! ## Membership in the per-field segments -/

/-- The only message the serviceId segment can contain. -/
theorem mem_serviceIdErrors (v : JSVal) (e : String)
    (h : e ∈ serviceIdErrors v) : e = "serviceId must be a positive integer" := by
  unfold serviceIdErrors at h
  split at h <;> simp at h
  exact h

/-- The only messages `validateStartAtMinuteOnly` can produce. -/
theorem validateStartAtMinuteOnly_messages (v : JSVal) (a : String)
    (h : validateStartAtMinuteOnly v = some a) :
    a = "startAt must be a string" ∨
    a = "startAt must be ISO 8601 without seconds/milliseconds (e.g., 2025-09-20T18:00Z)" ∨
    a = "startAt is not a valid datetime" := by
  unfold validateStartAtMinuteOnly at h
  cases v <;> simp at h <;> try simp [h]
  rename_i s
  split at h
  · simp at h
    simp [h]
  · split at h <;> simp at h
    simp [h]

/-- The only messages the startAt segment can contain. -/
theorem mem_startAtErrors (v : JSVal) (e : String) (h : e ∈ startAtErrors v) :
    e = "startAt must be a string" ∨
    e = "startAt must be ISO 8601 without seconds/milliseconds (e.g., 2025-09-20T18:00Z)" ∨
    e = "startAt is not a valid datetime" := by
  unfold startAtErrors at h
  rcases hv : validateStartAtMinuteOnly v with _ | a <;> rw [hv] at h <;>
    simp at h
  rw [h]
  exact validateStartAtMinuteOnly_messages v a hv

/-- The only message the name-requirement segment can contain. -/
theorem mem_clientNameRequiredErrors (v : JSVal) (e : String)
    (h : e ∈ clientNameRequiredErrors v) : e = "clientName is required" := by
  unfold clientNameRequiredErrors at h
  split at h <;> simp at h
  exact h

/-- The only message the contact-presence segment can contain. -/
theorem mem_contactPresenceErrors (a b : JSVal) (e : String)
    (h : e ∈ contactPresenceErrors a b) :
    e = "Either clientEmail or clientPhone must be provided" := by
  unfold contactPresenceErrors at h
  split at h <;> simp at h
  exact h

/-- The only messages the email segment can contain. -/
theorem mem_clientEmailErrors (v : JSVal) (e : String)
    (h : e ∈ clientEmailErrors v) :
    e = "clientEmail must be a valid email address" ∨
    e = "clientEmail is too long" := by
  unfold clientEmailErrors at h
  cases v <;> simp at h
  rcases h.2 with ⟨h1, rfl⟩ | ⟨h1, rfl⟩ <;> simp

/-- The only messages the phone segment can contain. -/
theorem mem_clientPhoneErrors (v : JSVal) (e : String)
    (h : e ∈ clientPhoneErrors v) :
    e = "clientPhone must be at least 7 digits long" ∨
    e = "clientPhone is too long" := by
  unfold clientPhoneErrors at h
  cases v <;> simp at h
  rcases h.2 with ⟨h1, rfl⟩ | ⟨h1, rfl⟩ <;> simp

/-- The only message the name-length segment can contain. -/
theorem mem_clientNameLengthErrors (v : JSVal) (e : String)
    (h : e ∈ clientNameLengthErrors v) : e = "clientName is too long" := by
  unfold clientNameLengthErrors at h
  cases v <;> simp at h
  exact h.2

/-! ## Claims about the field validator -/

/-- C2: for every payload, `validateAppointment` runs every field check
unconditionally and returns the error messages as the concatenation of the
per-rule segments in fixed field-declaration order — serviceId, startAt,
clientName requirement, email/phone presence, email format and length,
phone length bounds, name length; in particular a payload violating several
rules receives every corresponding message, in that order. -/
theorem c2_validator_runs_all_checks_in_order (p : Payload) :
    validateAppointment p =
      serviceIdErrors p.serviceId ++ startAtErrors p.startAt ++
      clientNameRequiredErrors p.clientName ++
      contactPresenceErrors p.clientEmail p.clientPhone ++
      clientEmailErrors p.clientEmail ++ clientPhoneErrors p.clientPhone ++
      clientNameLengthErrors p.clientName :=
  validateAppointment_eq p

/-- C3: a `startAt` whose first sixteen characters are followed by a
seconds or fractional-seconds separator is rejected with the ISO-format
error (which therefore appears in `validateAppointment`'s output), while a
string matching the minute-precision regex that parses to a valid
date-time produces no `startAt` error. -/
theorem c3_seconds_rejected_minute_accepted :
    (∀ (pre rest : List Char) (c : Char), pre.length = 16 →
      (c = ':' ∨ c = '.') →
      validateStartAtMinuteOnly (.str ⟨pre ++ c :: rest⟩) =
        some "startAt must be ISO 8601 without seconds/milliseconds (e.g., 2025-09-20T18:00Z)") ∧
    (∀ (p : Payload) (pre rest : List Char) (c : Char), pre.length = 16 →
      (c = ':' ∨ c = '.') → p.startAt = .str ⟨pre ++ c :: rest⟩ →
      "startAt must be ISO 8601 without seconds/milliseconds (e.g., 2025-09-20T18:00Z)"
        ∈ validateAppointment p) ∧
    (∀ (s : String) (ms : Int), isoMinuteNoSecondsTest s = true →
      jsParse s = some ms → validateStartAtMinuteOnly (.str s) = none) := by
  have part1 : ∀ (pre rest : List Char) (c : Char), pre.length = 16 →
      (c = ':' ∨ c = '.') →
      validateStartAtMinuteOnly (.str ⟨pre ++ c :: rest⟩) =
        some "startAt must be ISO 8601 without seconds/milliseconds (e.g., 2025-09-20T18:00Z)" := by
    intro pre rest c hlen hc
    have hg : (pre ++ c :: rest).getD 16 ' ' = c := by
      rw [List.getD_append_right pre (c :: rest) ' ' 16 (by omega)]
      rw [hlen]
      rfl
    have htest : isoMinuteNoSecondsTest ⟨pre ++ c :: rest⟩ = false := by
      unfold isoMinuteNoSecondsTest
      simp only []
      rw [hg]
      rcases hc with rfl | rfl <;> simp
    unfold validateStartAtMinuteOnly
    simp only []
    rw [htest]
    rfl
  refine ⟨part1, ?_, ?_⟩
  · intro p pre rest c hlen hc hsa
    rw [validateAppointment_eq p, startAtErrors, hsa, part1 pre rest c hlen hc]
    simp
  · intro s ms htest hp
    unfold validateStartAtMinuteOnly
    simp only []
    rw [htest, hp]
    rfl

/-- Witness for C3 at the concrete inputs of the specification. -/
theorem c3_seconds_rejected_minute_accepted_witness :
    validateStartAtMinuteOnly
        (.str ⟨"2025-09-20T18:00".data ++ ':' :: "00Z".data⟩) =
      some "startAt must be ISO 8601 without seconds/milliseconds (e.g., 2025-09-20T18:00Z)" ∧
    validateStartAtMinuteOnly (.str "2025-09-20T18:00Z") = none :=
  ⟨c3_seconds_rejected_minute_accepted.1 "2025-09-20T18:00".data "00Z".data ':'
      (by decide) (Or.inl rfl),
   c3_seconds_rejected_minute_accepted.2.2 "2025-09-20T18:00Z" 1758391200000
      (by decide) (by decide)⟩

/-- Every message of `validateAppointment`'s output belongs to one of the
per-field segments. -/
theorem validate_mem_classify (p : Payload) (e : String)
    (h : e ∈ validateAppointment p) :
    e ∈ serviceIdErrors p.serviceId ∨ e ∈ startAtErrors p.startAt ∨
    e ∈ clientNameRequiredErrors p.clientName ∨
    e ∈ contactPresenceErrors p.clientEmail p.clientPhone ∨
    e ∈ clientEmailErrors p.clientEmail ∨ e ∈ clientPhoneErrors p.clientPhone ∨
    e ∈ clientNameLengthErrors p.clientName := by
  rw [validateAppointment_eq p] at h
  simpa [List.mem_append, or_assoc] using h

/-- A truthy contact field makes the contact-presence segment empty. -/
theorem contactPresenceErrors_empty (a b : JSVal)
    (h : a.truthy = true ∨ b.truthy = true) :
    contactPresenceErrors a b = [] := by
  unfold contactPresenceErrors
  rcases h with h | h <;> rw [h] <;> simp

/-- A non-string email contributes no email errors. -/
theorem clientEmailErrors_non_str (v : JSVal) (hns : ∀ s : String, v ≠ .str s) :
    clientEmailErrors v = [] := by
  rcases hv : v with _ | _ | t | n | _ | b
  · rfl
  · rfl
  · exact absurd hv (hns t)
  · rfl
  · rfl
  · rfl

/-- A non-string phone contributes no phone errors. -/
theorem clientPhoneErrors_non_str (v : JSVal) (hns : ∀ s : String, v ≠ .str s) :
    clientPhoneErrors v = [] := by
  rcases hv : v with _ | _ | t | n | _ | b
  · rfl
  · rfl
  · exact absurd hv (hns t)
  · rfl
  · rfl
  · rfl

/-- C10: a truthy non-string contact field (a number, a boolean, …)
satisfies the contact-presence requirement while its format and length
checks are skipped entirely — in particular the concrete payload with a
numeric phone passes with zero errors — and a present-but-empty-string
contact field, email or phone, is treated as absent by the presence check
and its format and length checks never run. -/
theorem c10_contact_edge_cases :
    (∀ p : Payload, p.clientPhone.truthy = true →
      (∀ s : String, p.clientPhone ≠ .str s) →
      "Either clientEmail or clientPhone must be provided" ∉ validateAppointment p ∧
      "clientPhone must be at least 7 digits long" ∉ validateAppointment p ∧
      "clientPhone is too long" ∉ validateAppointment p) ∧
    (∀ p : Payload, p.clientEmail.truthy = true →
      (∀ s : String, p.clientEmail ≠ .str s) →
      "Either clientEmail or clientPhone must be provided" ∉ validateAppointment p ∧
      "clientEmail must be a valid email address" ∉ validateAppointment p ∧
      "clientEmail is too long" ∉ validateAppointment p) ∧
    validateAppointment numericPhonePayload = [] ∧
    (∀ p : Payload, p.clientEmail = .str "" →
      "clientEmail must be a valid email address" ∉ validateAppointment p ∧
      "clientEmail is too long" ∉ validateAppointment p ∧
      (p.clientPhone.truthy = false →
        "Either clientEmail or clientPhone must be provided" ∈ validateAppointment p)) ∧
    (∀ p : Payload, p.clientPhone = .str "" →
      "clientPhone must be at least 7 digits long" ∉ validateAppointment p ∧
      "clientPhone is too long" ∉ validateAppointment p ∧
      (p.clientEmail.truthy = false →
        "Either clientEmail or clientPhone must be provided" ∈ validateAppointment p)) := by
  refine ⟨?_, ?_, by decide, ?_, ?_⟩
  · intro p htr hns
    have hseg : clientPhoneErrors p.clientPhone = [] :=
      clientPhoneErrors_non_str p.clientPhone hns
    have hpres : contactPresenceErrors p.clientEmail p.clientPhone = [] :=
      contactPresenceErrors_empty _ _ (Or.inr htr)
    refine ⟨?_, ?_, ?_⟩ <;>
      · intro h
        rcases validate_mem_classify p _ h with h | h | h | h | h | h | h
        · exact absurd (mem_serviceIdErrors _ _ h) (by decide)
        · rcases mem_startAtErrors _ _ h with h1 | h1 | h1 <;>
            exact absurd h1 (by decide)
        · exact absurd (mem_clientNameRequiredErrors _ _ h) (by decide)
        · rw [hpres] at h
          exact absurd h (List.not_mem_nil _)
        · rcases mem_clientEmailErrors _ _ h with h1 | h1 <;>
            exact absurd h1 (by decide)
        · rw [hseg] at h
          exact absurd h (List.not_mem_nil _)
        · exact absurd (mem_clientNameLengthErrors _ _ h) (by decide)
  · intro p htr hns
    have hseg : clientEmailErrors p.clientEmail = [] :=
      clientEmailErrors_non_str p.clientEmail hns
    have hpres : contactPresenceErrors p.clientEmail p.clientPhone = [] :=
      contactPresenceErrors_empty _ _ (Or.inl htr)
    refine ⟨?_, ?_, ?_⟩ <;>
      · intro h
        rcases validate_mem_classify p _ h with h | h | h | h | h | h | h
        · exact absurd (mem_serviceIdErrors _ _ h) (by decide)
        · rcases mem_startAtErrors _ _ h with h1 | h1 | h1 <;>
            exact absurd h1 (by decide)
        · exact absurd (mem_clientNameRequiredErrors _ _ h) (by decide)
        · rw [hpres] at h
          exact absurd h (List.not_mem_nil _)
        · rw [hseg] at h
          exact absurd h (List.not_mem_nil _)
        · rcases mem_clientPhoneErrors _ _ h with h1 | h1 <;>
            exact absurd h1 (by decide)
        · exact absurd (mem_clientNameLengthErrors _ _ h) (by decide)
  · intro p hem
    have hseg : clientEmailErrors p.clientEmail = [] := by
      rw [hem]
      rfl
    refine ⟨?_, ?_, ?_⟩
    · intro h
      rcases validate_mem_classify p _ h with h | h | h | h | h | h | h
      · exact absurd (mem_serviceIdErrors _ _ h) (by decide)
      · rcases mem_startAtErrors _ _ h with h1 | h1 | h1 <;>
          exact absurd h1 (by decide)
      · exact absurd (mem_clientNameRequiredErrors _ _ h) (by decide)
      · exact absurd (mem_contactPresenceErrors _ _ _ h) (by decide)
      · rw [hseg] at h
        exact absurd h (List.not_mem_nil _)
      · rcases mem_clientPhoneErrors _ _ h with h1 | h1 <;>
          exact absurd h1 (by decide)
      · exact absurd (mem_clientNameLengthErrors _ _ h) (by decide)
    · intro h
      rcases validate_mem_classify p _ h with h | h | h | h | h | h | h
      · exact absurd (mem_serviceIdErrors _ _ h) (by decide)
      · rcases mem_startAtErrors _ _ h with h1 | h1 | h1 <;>
          exact absurd h1 (by decide)
      · exact absurd (mem_clientNameRequiredErrors _ _ h) (by decide)
      · exact absurd (mem_contactPresenceErrors _ _ _ h) (by decide)
      · rw [hseg] at h
        exact absurd h (List.not_mem_nil _)
      · rcases mem_clientPhoneErrors _ _ h with h1 | h1 <;>
          exact absurd h1 (by decide)
      · exact absurd (mem_clientNameLengthErrors _ _ h) (by decide)
    · intro hpf
      rw [validateAppointment_eq p]
      have hpres : contactPresenceErrors p.clientEmail p.clientPhone =
          ["Either clientEmail or clientPhone must be provided"] := by
        unfold contactPresenceErrors
        rw [hem, hpf]
        rfl
      rw [hpres]
      simp
  · intro p hph
    have hseg : clientPhoneErrors p.clientPhone = [] := by
      rw [hph]
      rfl
    refine ⟨?_, ?_, ?_⟩
    · intro h
      rcases validate_mem_classify p _ h with h | h | h | h | h | h | h
      · exact absurd (mem_serviceIdErrors _ _ h) (by decide)
      · rcases mem_startAtErrors _ _ h with h1 | h1 | h1 <;>
          exact absurd h1 (by decide)
      · exact absurd (mem_clientNameRequiredErrors _ _ h) (by decide)
      · exact absurd (mem_contactPresenceErrors _ _ _ h) (by decide)
      · rcases mem_clientEmailErrors _ _ h with h1 | h1 <;>
          exact absurd h1 (by decide)
      · rw [hseg] at h
        exact absurd h (List.not_mem_nil _)
      · exact absurd (mem_clientNameLengthErrors _ _ h) (by decide)
    · intro h
      rcases validate_mem_classify p _ h with h | h | h | h | h | h | h
      · exact absurd (mem_serviceIdErrors _ _ h) (by decide)
      · rcases mem_startAtErrors _ _ h with h1 | h1 | h1 <;>
          exact absurd h1 (by decide)
      · exact absurd (mem_clientNameRequiredErrors _ _ h) (by decide)
      · exact absurd (mem_contactPresenceErrors _ _ _ h) (by decide)
      · rcases mem_clientEmailErrors _ _ h with h1 | h1 <;>
          exact absurd h1 (by decide)
      · rw [hseg] at h
        exact absurd h (List.not_mem_nil _)
      · exact absurd (mem_clientNameLengthErrors _ _ h) (by decide)
    · intro hef
      rw [validateAppointment_eq p]
      have hpres : contactPresenceErrors p.clientEmail p.clientPhone =
          ["Either clientEmail or clientPhone must be provided"] := by
        unfold contactPresenceErrors
        rw [hef, hph]
        rfl
      rw [hpres]
      simp

/-- Witness for C10 at concrete payloads: a numeric phone, a boolean
phone, an empty-string email, and an empty-string phone. -/
theorem c10_contact_edge_cases_witness :
    ("Either clientEmail or clientPhone must be provided" ∉
        validateAppointment numericPhonePayload) ∧
    ("clientPhone must be at least 7 digits long" ∉
      validateAppointment
        { janePayload with
            clientEmail := JSVal.undef, clientPhone := JSVal.boolean true }) ∧
    ("clientEmail must be a valid email address" ∉
      validateAppointment
        { janePayload with clientEmail := .str "", clientPhone := .undef }) ∧
    ("Either clientEmail or clientPhone must be provided" ∈
      validateAppointment
        { janePayload with clientEmail := .str "", clientPhone := .undef }) ∧
    ("clientPhone must be at least 7 digits long" ∉
      validateAppointment
        { janePayload with clientEmail := .undef, clientPhone := .str "" }) ∧
    ("Either clientEmail or clientPhone must be provided" ∈
      validateAppointment
        { janePayload with clientEmail := .undef, clientPhone := .str "" }) :=
  ⟨(c10_contact_edge_cases.1 numericPhonePayload (by decide)
      (fun _ h => JSVal.noConfusion h)).1,
   (c10_contact_edge_cases.1
      { janePayload with clientEmail := .undef, clientPhone := .boolean true }
      (by decide) (fun _ h => JSVal.noConfusion h)).2.1,
   (c10_contact_edge_cases.2.2.2.1
      { janePayload with clientEmail := .str "", clientPhone := .undef }
      rfl).1,
   (c10_contact_edge_cases.2.2.2.1
      { janePayload with clientEmail := .str "", clientPhone := .undef }
      rfl).2.2 rfl,
   (c10_contact_edge_cases.2.2.2.2
      { janePayload with clientEmail := .undef, clientPhone := .str "" }
      rfl).1,
   (c10_contact_edge_cases.2.2.2.2
      { janePayload with clientEmail := .undef, clientPhone := .str "" }
      rfl).2.2 rfl⟩

/-! ## Claim C8: the phone invariant after normalization -/

/-- Counterexample to C8 as stated: this payload passes validation with
zero errors and has a phone present, yet the normalized phone is the
one-character string `"1"`, whose length is below 7 — validation measures
the untrimmed string, normalization trims it. -/
theorem c8_counterexample :
    validateAppointment paddedPhonePayload = [] ∧
    paddedPhonePayload.clientPhone.truthy = true ∧
    normalizeAppointment paddedPhonePayload = some
      { serviceId := .num 1, startAt := .str "2025-09-20T18:00:00Z",
        clientName := .str "Jane Doe", clientEmail := .undef,
        clientPhone := .str "1" } ∧
    ¬(7 ≤ ("1" : String).length) :=
  ⟨by decide, by decide, by decide, by decide⟩

/-- C8 (amended): for every request that passes validation with a truthy
phone, the normalized `clientPhone` is the stringification of the input
phone, trimmed and then truncated to 40 characters; its length is at most
40 (the lower bound 7 of the claim does not hold, because validation
checks the untrimmed length). -/
theorem c8_phone_trimmed_capped (p d : Payload)
    (hv : validateAppointment p = []) (ht : p.clientPhone.truthy = true)
    (hn : normalizeAppointment p = some d) :
    d.clientPhone = .str ⟨(jsTrim (jsToString p.clientPhone)).data.take 40⟩ ∧
    ∀ s : String, d.clientPhone = .str s → s.length ≤ 40 := by
  unfold normalizeAppointment at hn
  simp only [] at hn
  split at hn
  · exact absurd hn (by simp)
  · injection hn with hn
    have hph : d.clientPhone =
        JSVal.str ⟨(jsTrim (jsToString p.clientPhone)).data.take 40⟩ := by
      rw [← hn]
      simp only [ht, if_true]
    refine ⟨hph, ?_⟩
    intro s hs
    rw [hph] at hs
    injection hs with hs
    have hlen : s.length = ((jsTrim (jsToString p.clientPhone)).data.take 40).length := by
      rw [← hs]
      rfl
    rw [hlen, List.length_take]
    omega

/-- Witness for the amended C8 at the padded-phone payload. -/
theorem c8_phone_trimmed_capped_witness :
    ({ serviceId := .num 1, startAt := .str "2025-09-20T18:00:00Z",
       clientName := .str "Jane Doe", clientEmail := .undef,
       clientPhone := .str "1" } : Payload).clientPhone =
      .str ⟨(jsTrim (jsToString paddedPhonePayload.clientPhone)).data.take 40⟩ ∧
    ∀ s : String,
      ({ serviceId := .num 1, startAt := .str "2025-09-20T18:00:00Z",
         clientName := .str "Jane Doe", clientEmail := .undef,
         clientPhone := .str "1" } : Payload).clientPhone = .str s →
      s.length ≤ 40 :=
  c8_phone_trimmed_capped paddedPhonePayload _ (by decide) (by decide)
    (by decide)

/-! ## Claim C9: the normalizer does not mutate its input -/

/-- A heap write at one index leaves the object at another index
unchanged. -/
theorem heapSet_get?_ne (L : List Payload) (i j : Nat) (f : Payload → Payload)
    (h : i ≠ j) : (heapSet L i f).get? j = L.get? j := by
  unfold heapSet
  exact List.get?_set_ne _ _ h

/-- C9: `normalizeAppointment` never mutates its input object: replayed
against an explicit heap, every write of the function targets the freshly
allocated shallow copy, so the original object is unchanged (also when the
`startAt` canonicalization throws midway), and the returned reference is
distinct from the argument reference. -/
theorem c9_normalize_does_not_mutate (H : List Payload) (r : Nat)
    (hr : r < H.length) :
    (normalizeAppointmentHeap H r).1.get? r = H.get? r ∧
    (∀ rd : Nat, (normalizeAppointmentHeap H r).2 = some rd → rd ≠ r) := by
  have hne : H.length ≠ r := Nat.ne_of_gt hr
  have hs : ∀ (L : List Payload) (f : Payload → Payload),
      (heapSet L H.length f).get? r = L.get? r := by
    intro L f
    unfold heapSet
    exact List.get?_set_ne _ _ hne
  have happ : (H ++ [H.getD r emptyPayload]).get? r = H.get? r :=
    List.get?_append hr
  unfold normalizeAppointmentHeap
  simp only []
  constructor
  · split <;>
      simp only [hs, happ, apply_ite (fun (L : List Payload) => L.get? r),
        ite_self]
  · intro rd h
    split at h <;> simp only [] at h
    · exact absurd h (by simp)
    · injection h with h
      omega

/-- Witness for C9 on a one-object heap. -/
theorem c9_normalize_does_not_mutate_witness :
    (normalizeAppointmentHeap [janePayload] 0).1.get? 0 = [janePayload].get? 0 ∧
    (∀ rd : Nat, (normalizeAppointmentHeap [janePayload] 0).2 = some rd →
      rd ≠ 0) :=
  c9_normalize_does_not_mutate [janePayload] 0 (by decide)

/-! ## Claims about normalization and the schedule policy -/

/-- C4: for every valid minute-precision timestamp with a UTC offset (a
string accepted by the regex that parses, with the parsed instant in the
four-digit-year rendering range), `normalizeToIsoMinuteZ` yields the
canonical form `YYYY-MM-DDTHH:MM:00Z`, and it is idempotent: normalizing
the normalized string yields it unchanged. -/
theorem c4_normalize_idempotent (s : String) (ms : Int)
    (hre : isoMinuteNoSecondsTest s = true) (hp : jsParse s = some ms)
    (h1 : -719528 ≤ ms / 86400000) (h2 : ms / 86400000 ≤ 2932896) :
    normalizeToIsoMinuteZ s = some (isoStringNoMs ms) ∧
    normalizeToIsoMinuteZ (isoStringNoMs ms) = some (isoStringNoMs ms) ∧
    canonicalShapeTest (isoStringNoMs ms) = true := by
  have hal := jsParse_minute_aligned s ms hre hp
  have hfloor : ms / 60000 * 60000 = ms := by omega
  refine ⟨?_, ?_, ?_⟩
  · unfold normalizeToIsoMinuteZ
    rw [hp]
    simp only []
    rw [hfloor]
  · unfold normalizeToIsoMinuteZ
    rw [parse_isoStringNoMs ms hal h1 h2]
    simp only []
    rw [hfloor]
  · exact canonicalShapeTest_canonChars _ _ _ _ _ _ (isoStringNoMs_data ms hal)

/-- Witness for C4 at the specification's example timestamp. -/
theorem c4_normalize_idempotent_witness :
    normalizeToIsoMinuteZ "2025-09-20T18:00Z" =
      some (isoStringNoMs 1758391200000) ∧
    normalizeToIsoMinuteZ (isoStringNoMs 1758391200000) =
      some (isoStringNoMs 1758391200000) ∧
    canonicalShapeTest (isoStringNoMs 1758391200000) = true :=
  c4_normalize_idempotent "2025-09-20T18:00Z" 1758391200000 (by decide)
    (by decide) (by decide) (by decide)

/-- C5: on a normalized timestamp (the canonical rendering of a
minute-aligned instant), `enforceFifteenMinuteGrid` passes exactly when the
UTC minute — which equals the string's minute field — is a multiple of 15,
and on failure it returns exactly the one alignment message. -/
theorem c5_grid_iff_quarter_hour (t : Int) (ht : t % 60000 = 0)
    (h1 : -719528 ≤ t / 86400000) (h2 : t / 86400000 ≤ 2932896) :
    (enforceFifteenMinuteGrid (isoStringNoMs t) = none ↔
      t / 60000 % 60 % 15 = 0) ∧
    (∀ e, enforceFifteenMinuteGrid (isoStringNoMs t) = some e →
      e = "startAt must align to 15-minute increments") ∧
    readD2 (isoStringNoMs t).data 14 = t / 60000 % 60 := by
  have hparse := parse_isoStringNoMs t ht h1 h2
  refine ⟨?_, ?_, ?_⟩
  · unfold enforceFifteenMinuteGrid
    rw [hparse]
    simp only []
    split <;> rename_i hcond <;> simp [hcond]
  · intro e he
    unfold enforceFifteenMinuteGrid at he
    rw [hparse] at he
    simp only [] at he
    split at he <;> simp at he
    exact he.symm
  · rw [isoStringNoMs_data t ht,
      canonChars_readD2_14 _ _ _ _ _ (by omega) (by omega)]
    omega

/-- Witness for C5 at an aligned and at a non-aligned instant. -/
theorem c5_grid_iff_quarter_hour_witness :
    ((enforceFifteenMinuteGrid (isoStringNoMs 1758391200000) = none ↔
        (1758391200000 : Int) / 60000 % 60 % 15 = 0) ∧
      (∀ e, enforceFifteenMinuteGrid (isoStringNoMs 1758391200000) = some e →
        e = "startAt must align to 15-minute increments") ∧
      readD2 (isoStringNoMs 1758391200000).data 14 =
        (1758391200000 : Int) / 60000 % 60) ∧
    ((enforceFifteenMinuteGrid (isoStringNoMs 1758391800000) = none ↔
        (1758391800000 : Int) / 60000 % 60 % 15 = 0) ∧
      (∀ e, enforceFifteenMinuteGrid (isoStringNoMs 1758391800000) = some e →
        e = "startAt must align to 15-minute increments") ∧
      readD2 (isoStringNoMs 1758391800000).data 14 =
        (1758391800000 : Int) / 60000 % 60) :=
  ⟨c5_grid_iff_quarter_hour 1758391200000 (by decide) (by decide) (by decide),
   c5_grid_iff_quarter_hour 1758391800000 (by decide) (by decide) (by decide)⟩

/-- C7: for a parseable minute-aligned start and any duration keeping the
end instant in the rendering range, `computeEndAt` returns exactly the
minute-canonicalization (the rendering `normalizeToIsoMinuteZ` performs)
of the instant `start + durationMinutes`, in the canonical form
`YYYY-MM-DDTHH:MM:00Z`. -/
theorem c7_computeEndAt_canonical (s : String) (ms dur : Int)
    (hp : jsParse s = some ms) (hal : ms % 60000 = 0)
    (h1 : -719528 ≤ (ms + dur * 60000) / 86400000)
    (h2 : (ms + dur * 60000) / 86400000 ≤ 2932896) :
    computeEndAt s dur = some (minuteCanonicalOfInstant (ms + dur * 60000)) ∧
    canonicalShapeTest (minuteCanonicalOfInstant (ms + dur * 60000)) = true := by
  have hal2 : (ms + dur * 60000) % 60000 = 0 := by omega
  have hcanon : minuteCanonicalOfInstant (ms + dur * 60000) =
      isoStringNoMs (ms + dur * 60000) := by
    unfold minuteCanonicalOfInstant
    rw [show (ms + dur * 60000) / 60000 * 60000 = ms + dur * 60000 from by
      omega]
  constructor
  · unfold computeEndAt
    rw [hp]
    simp only []
    rw [if_pos (by omega), hcanon]
  · rw [hcanon]
    exact canonicalShapeTest_canonChars _ _ _ _ _ _
      (isoStringNoMs_data _ hal2)

/-- Witness for C7 at the specification's example: 18:00 plus 60 minutes. -/
theorem c7_computeEndAt_canonical_witness :
    computeEndAt "2025-09-20T18:00:00Z" 60 =
      some (minuteCanonicalOfInstant (1758391200000 + 60 * 60000)) ∧
    canonicalShapeTest (minuteCanonicalOfInstant (1758391200000 + 60 * 60000)) =
      true :=
  c7_computeEndAt_canonical "2025-09-20T18:00:00Z" 1758391200000 60
    (by decide) (by decide) (by decide) (by decide)

/-! ## Claims about the intake orchestrator -/

/-- C1: evaluated strictly before the start instant with the grid check
disabled, the specification's example payload is accepted: validation
returns no errors and the assembled record has status `pending`, the
canonical start `2025-09-20T18:00:00Z`, and the 60-minute end
`2025-09-20T19:00:00Z`. -/
theorem c1_end_to_end_accept (now : Int) (i c k : String)
    (h : now < 1758391200000) :
    postAppointments now false i c k janePayload =
      .accept 202
        { id := i, serviceId := .num 1, startAt := "2025-09-20T18:00:00Z",
          endAt := "2025-09-20T19:00:00Z", clientName := .str "Jane Doe",
          clientEmail := .str "jane@example.com", clientPhone := .undef,
          status := "pending", confirmToken := c, cancelToken := k } ∧
    validateAppointment janePayload = [] := by
  refine ⟨?_, by decide⟩
  have key : postAppointments now false i c k janePayload =
      if (1758391200000 : Int) ≤ now then
        IntakeResult.reject 400 ["startAt must be in the future"]
      else
        .accept 202
          { id := i, serviceId := .num 1, startAt := "2025-09-20T18:00:00Z",
            endAt := "2025-09-20T19:00:00Z", clientName := .str "Jane Doe",
            clientEmail := .str "jane@example.com", clientPhone := .undef,
            status := "pending", confirmToken := c, cancelToken := k } := by
    rfl
  rw [key, if_neg (by omega)]

/-- Witness for C1 at evaluation instant 0. -/
theorem c1_end_to_end_accept_witness :
    postAppointments 0 false "i" "c" "k" janePayload =
      .accept 202
        { id := "i", serviceId := .num 1, startAt := "2025-09-20T18:00:00Z",
          endAt := "2025-09-20T19:00:00Z", clientName := .str "Jane Doe",
          clientEmail := .str "jane@example.com", clientPhone := .undef,
          status := "pending", confirmToken := "c", cancelToken := "k" } ∧
    validateAppointment janePayload = [] :=
  c1_end_to_end_accept 0 "i" "c" "k" (by decide)

/-- Counterexample to C6 as stated: with a past `startAt` but an invalid
`serviceId`, the pipeline rejects with the serviceId error list, not with
`["startAt must be in the future"]` — so the rejection is not independent
of the other fields' validity. -/
theorem c6_counterexample :
    postAppointments 1758391200000 false "i" "c" "k" pastInvalidPayload =
      .reject 400 ["serviceId must be a positive integer"] ∧
    IntakeResult.reject 400 ["serviceId must be a positive integer"] ≠
      .reject 400 ["startAt must be in the future"] :=
  ⟨by decide, by decide⟩

/-- C6 (amended): once field validation and the grid check pass, the
future-time check accepts exactly when the parsed normalized instant is
strictly greater than the evaluation instant: the pipeline rejects with the
single-element list `["startAt must be in the future"]` if and only if the
instant is less than or equal to `now`. -/
theorem c6_future_check_strict (now : Int) (gw : Bool) (i c k : String)
    (p data : Payload) (ms : Int)
    (hv : validateAppointment p = [])
    (hn : normalizeAppointment p = some data)
    (hg : gw = false ∨ enforceFifteenMinuteGrid (jsToString data.startAt) = none)
    (hp : jsParse (jsToString data.startAt) = some ms) :
    postAppointments now gw i c k p =
      .reject 400 ["startAt must be in the future"] ↔ ms ≤ now := by
  unfold postAppointments
  simp only []
  rw [hv]
  rw [if_neg (by simp)]
  rw [hn]
  simp only []
  have hgrid : (if gw = true then
      enforceFifteenMinuteGrid (jsToString data.startAt) else none) = none := by
    rcases hg with rfl | hgn
    · simp
    · split <;> simp [hgn]
  rw [hgrid]
  simp only []
  rw [hp]
  simp only []
  constructor
  · intro hres
    by_contra hc
    rw [if_neg (by omega)] at hres
    rcases hE : computeEndAt (jsToString data.startAt) 60 with _ | e <;>
      rw [hE] at hres <;> simp at hres
  · intro hle
    rw [if_pos hle]

/-- Witness for the amended C6 at the boundary instant (equal to now). -/
theorem c6_future_check_strict_witness :
    (postAppointments 1758391200000 false "i" "c" "k" janePayload =
      .reject 400 ["startAt must be in the future"] ↔
      (1758391200000 : Int) ≤ 1758391200000) :=
  c6_future_check_strict 1758391200000 false "i" "c" "k" janePayload
    { serviceId := .num 1, startAt := .str "2025-09-20T18:00:00Z",
      clientName := .str "Jane Doe", clientEmail := .str "jane@example.com",
      clientPhone := .undef } 1758391200000
    (by decide) (by decide) (Or.inl rfl) (by decide)
